import Mathlib

/-!
Verification of the Graspify gamification ledger.

Shallow embedding of the Zustand game store in `src/lib/gemini.ts`
(the "Progress Ledger"): XP awards, levels, daily streaks, badges,
daily missions and activity counters, together with proofs of the
specification's claims about these operations.

Modelling conventions:
* Calendar dates and timestamps are modelled as integers (`Int`), at day
  granularity; `today - 1` plays the role of "yesterday".
* JavaScript numbers holding XP, levels, streaks, progress and counters
  are modelled as `Nat` (they are only ever non-negative integers here).
* The streak multiplier (a JS float taking only the values
  1.0, 1.25, 1.5, 1.75, 2.0, all exactly representable) is modelled as `ℚ`,
  and `Math.floor` as `Int.floor` on `ℚ`.
* Display-only string fields (names, descriptions, icons, requirement
  text, avatars) do not influence any ledger operation and are omitted
  from the record types.
-/

namespace Graspify

/-- Activity types that award XP (`XPEventType` in `src/types/index.ts`). -/
inductive XPEventType where
  | correct_step
  | submit_step
  | complete_quiz
  | perfect_quiz
  | review_flashcard
  | complete_mission
  | streak_bonus
deriving DecidableEq, Repr

/-- Mission categories, the `type` field of `Mission` in `src/types/index.ts`. -/
inductive MissionType where
  | quiz
  | flashcard
  | doubt
  | streak
  | study
deriving DecidableEq, Repr

/-- User profile record (`User` in `src/types/index.ts`), restricted to the fields the ledger
operations read or write (`id`, `name`, `avatar`, `createdAt` are display
and identity data untouched by the claims). -/
structure User where
  xp : Nat
  level : Nat
  streak : Nat
  lastActiveDate : Int
  badges : List String
deriving DecidableEq, Repr

/-- Badge record (`Badge` in `src/types/index.ts`), restricted to the operationally
relevant fields (`name`, `description`, `icon`, `requirement` omitted). -/
structure Badge where
  id : String
  xpReward : Nat
  unlocked : Bool
  unlockedAt : Option Int
deriving DecidableEq, Repr

/-- Mission record (`Mission` in `src/types/index.ts`), restricted to the operationally
relevant fields (`title`, `description` omitted). -/
structure Mission where
  id : String
  type : MissionType
  target : Nat
  progress : Nat
  xpReward : Nat
  completed : Bool
deriving DecidableEq, Repr

/-- The keys of the `stats` record of the game store. -/
inductive StatKey where
  | quizzesCompleted
  | flashcardsReviewed
  | doubtsAsked
  | stepsSubmitted
  | correctSteps
  | studyPlansCreated
  | imagesUploaded
deriving DecidableEq, Repr

/-- The `stats` record of the game store: cumulative activity counters. -/
structure Stats where
  quizzesCompleted : Nat
  flashcardsReviewed : Nat
  doubtsAsked : Nat
  stepsSubmitted : Nat
  correctSteps : Nat
  studyPlansCreated : Nat
  imagesUploaded : Nat
deriving DecidableEq, Repr

/-- Read a counter by key (`state.stats[stat]`). -/
def Stats.get (s : Stats) : StatKey → Nat
  | .quizzesCompleted => s.quizzesCompleted
  | .flashcardsReviewed => s.flashcardsReviewed
  | .doubtsAsked => s.doubtsAsked
  | .stepsSubmitted => s.stepsSubmitted
  | .correctSteps => s.correctSteps
  | .studyPlansCreated => s.studyPlansCreated
  | .imagesUploaded => s.imagesUploaded

/-- Bump one counter: the `(stat) => (... state.stats with stat + 1)` spread. -/
def Stats.inc (s : Stats) : StatKey → Stats
  | .quizzesCompleted => { s with quizzesCompleted := s.quizzesCompleted + 1 }
  | .flashcardsReviewed => { s with flashcardsReviewed := s.flashcardsReviewed + 1 }
  | .doubtsAsked => { s with doubtsAsked := s.doubtsAsked + 1 }
  | .stepsSubmitted => { s with stepsSubmitted := s.stepsSubmitted + 1 }
  | .correctSteps => { s with correctSteps := s.correctSteps + 1 }
  | .studyPlansCreated => { s with studyPlansCreated := s.studyPlansCreated + 1 }
  | .imagesUploaded => { s with imagesUploaded := s.imagesUploaded + 1 }

/-- The whole game store state (user profile, badge catalog, daily
missions, activity counters). -/
structure GameState where
  user : User
  badges : List Badge
  missions : List Mission
  stats : Stats
deriving DecidableEq, Repr

/-- Return type of `addXP`. -/
structure AddXPResult where
  xpGained : Nat
  leveledUp : Bool
  newLevel : Option Nat
deriving DecidableEq, Repr

/-- Mapping of events to their base XP values (`XP_REWARDS`). -/
def XP_REWARDS : XPEventType → Nat
  | .correct_step => 10
  | .submit_step => 2
  | .complete_quiz => 50
  | .perfect_quiz => 25
  | .review_flashcard => 3
  | .complete_mission => 0
  | .streak_bonus => 0

/-- Level formula `Math.floor(Math.sqrt(xp / 100)) + 1` (`calculateLevel`).
For non-negative integer `xp`, `⌊√(xp/100)⌋ = Nat.sqrt (xp / 100)`
(flooring the radicand first does not change the floored square root). -/
def calculateLevel (xp : Nat) : Nat :=
  Nat.sqrt (xp / 100) + 1

/-- The XP multiplier as a function of the streak (`getStreakMultiplier`). -/
def getStreakMultiplier (streak : Nat) : ℚ :=
  if streak ≥ 30 then 2
  else if streak ≥ 14 then 7/4
  else if streak ≥ 7 then 3/2
  else if streak ≥ 3 then 5/4
  else 1

/-- Badge unlock (`unlockBadge(badgeId)`): no-op returning `none` if the badge is unknown
or already unlocked; otherwise marks it unlocked with timestamp `now`,
appends the id to the user's badge list, adds the badge's `xpReward`
directly to `user.xp`, and returns `{ ...badge, unlocked: true }`
(the pre-update badge with only `unlocked` overwritten). -/
def unlockBadge (now : Int) (badgeId : String) (st : GameState) :
    Option Badge × GameState :=
  match st.badges.find? (fun b => b.id == badgeId) with
  | none => (none, st)
  | some badge =>
    if badge.unlocked then (none, st)
    else
      let updatedBadges := st.badges.map (fun b =>
        if b.id == badgeId then { b with unlocked := true, unlockedAt := some now } else b)
      (some { badge with unlocked := true },
       { st with
          badges := updatedBadges,
          user := { st.user with
            badges := st.user.badges ++ [badgeId],
            xp := st.user.xp + badge.xpReward } })

/-- XP award (`addXP(type, customAmount?)`): base XP is the override if given, else the
`XP_REWARDS` table entry; gained XP is `Math.floor(base * multiplier)`;
adds it to `user.xp`, recomputes `user.level`, and if the new level is ≥ 10
attempts to unlock the `level_10` badge. -/
def addXP (now : Int) (t : XPEventType) (customAmount : Option Nat)
    (st : GameState) : AddXPResult × GameState :=
  let baseXP := customAmount.getD (XP_REWARDS t)
  let multiplier := getStreakMultiplier st.user.streak
  let xpGained := (Int.floor ((baseXP : ℚ) * multiplier)).toNat
  let newXP := st.user.xp + xpGained
  let newLevel := calculateLevel newXP
  let leveledUp := decide (st.user.level < newLevel)
  let st1 := { st with user := { st.user with xp := newXP, level := newLevel } }
  let st2 := if newLevel ≥ 10 then (unlockBadge now "level_10" st1).2 else st1
  ({ xpGained := xpGained,
     leveledUp := leveledUp,
     newLevel := if leveledUp then some newLevel else none }, st2)

/-- Daily streak roll (`updateStreak()`) with `today` passed explicitly (the code reads the
wall clock): increments the streak if `lastActiveDate` is yesterday,
resets it to 1 if it is neither yesterday nor today, keeps it if it is
already today; always sets `lastActiveDate := today`; finally, if the
resulting streak is ≥ 7, attempts to unlock the `week_streak` badge. -/
def updateStreak (today : Int) (st : GameState) : GameState :=
  let lastActive := st.user.lastActiveDate
  let yesterday := today - 1
  let newStreak :=
    if lastActive = yesterday then st.user.streak + 1
    else if lastActive ≠ today then 1
    else st.user.streak
  let st1 := { st with user := { st.user with streak := newStreak, lastActiveDate := today } }
  if newStreak ≥ 7 then (unlockBadge today "week_streak" st1).2 else st1

/-- The `missions.map` body of `updateMissionProgress`, with the store
threading made explicit: walks the snapshot of the missions list in
order; every matching, not-yet-completed mission has its progress bumped
and clamped, and each mission that thereby completes triggers
`addXP('complete_mission', m.xpReward)` against the current store state.
Returns the rebuilt missions list, the threaded state, and the list of
mission-completion base awards made (one entry per `addXP` call). -/
def missionFold (now : Int) (t : MissionType) (amount : Nat) :
    List Mission → GameState → List Mission × GameState × List Nat
  | [], st => ([], st, [])
  | m :: rest, st =>
    if m.type = t ∧ m.completed = false then
      let newProgress := min (m.progress + amount) m.target
      let completed := decide (newProgress ≥ m.target)
      let st1 := if completed then (addXP now .complete_mission (some m.xpReward) st).2 else st
      let award := if completed then [m.xpReward] else []
      let rec0 := missionFold now t amount rest st1
      ({ m with progress := newProgress, completed := completed } :: rec0.1,
       rec0.2.1, award ++ rec0.2.2)
    else
      let rec0 := missionFold now t amount rest st
      (m :: rec0.1, rec0.2.1, rec0.2.2)

/-- Mission progress update (`updateMissionProgress(type, amount)`): the final
`set({ missions: updatedMissions })` installs the rebuilt list over the
state the `addXP` calls produced. -/
def updateMissionProgress (now : Int) (t : MissionType) (amount : Nat)
    (st : GameState) : GameState :=
  let r := missionFold now t amount st.missions st
  { r.2.1 with missions := r.1 }

/-- Observation of one `updateMissionProgress` call: the base amounts of
the `addXP('complete_mission', _)` invocations it performs. -/
def missionAwards (now : Int) (t : MissionType) (amount : Nat)
    (st : GameState) : List Nat :=
  (missionFold now t amount st.missions st).2.2

/-- Counter increment (`incrementStat(stat)`): bump the counter, then run the seven badge
threshold checks in source order, each against the bumped counters. -/
def incrementStat (now : Int) (stat : StatKey) (st : GameState) : GameState :=
  let newStats := st.stats.inc stat
  let st0 := { st with stats := newStats }
  let st1 := if stat = .stepsSubmitted ∧ newStats.stepsSubmitted = 1 then
    (unlockBadge now "first_step" st0).2 else st0
  let st2 := if stat = .correctSteps ∧ newStats.correctSteps = 1 then
    (unlockBadge now "correct_step" st1).2 else st1
  let st3 := if stat = .quizzesCompleted ∧ newStats.quizzesCompleted ≥ 5 then
    (unlockBadge now "quiz_master" st2).2 else st2
  let st4 := if stat = .flashcardsReviewed ∧ newStats.flashcardsReviewed ≥ 50 then
    (unlockBadge now "flashcard_fan" st3).2 else st3
  let st5 := if stat = .studyPlansCreated ∧ newStats.studyPlansCreated = 1 then
    (unlockBadge now "study_planner" st4).2 else st4
  let st6 := if stat = .doubtsAsked ∧ newStats.doubtsAsked ≥ 10 then
    (unlockBadge now "doubt_solver" st5).2 else st5
  if stat = .imagesUploaded ∧ newStats.imagesUploaded ≥ 5 then
    (unlockBadge now "ocr_explorer" st6).2 else st6

/-- The badge catalog (`BADGES`), operational fields only. -/
def BADGES : List Badge :=
  [ ⟨"first_step", 25, false, none⟩,
    ⟨"correct_step", 50, false, none⟩,
    ⟨"quiz_master", 100, false, none⟩,
    ⟨"perfect_score", 150, false, none⟩,
    ⟨"flashcard_fan", 75, false, none⟩,
    ⟨"week_streak", 200, false, none⟩,
    ⟨"study_planner", 50, false, none⟩,
    ⟨"doubt_solver", 100, false, none⟩,
    ⟨"level_10", 250, false, none⟩,
    ⟨"ocr_explorer", 50, false, none⟩ ]

/-- The daily missions (`DAILY_MISSIONS`), already extended with `progress: 0, completed: false`
as the store initializer (`DAILY_MISSIONS.map(m => ({...m, progress: 0,
completed: false}))`) does. -/
def DAILY_MISSIONS : List Mission :=
  [ ⟨"mission_quiz", .quiz, 2, 0, 75, false⟩,
    ⟨"mission_flashcard", .flashcard, 15, 0, 50, false⟩,
    ⟨"mission_doubt", .doubt, 3, 0, 60, false⟩,
    ⟨"mission_study", .study, 1, 0, 40, false⟩ ]

/-- The store's initial state, with the creation date `today` explicit. -/
def initialState (today : Int) : GameState :=
  { user := { xp := 0, level := 1, streak := 0, lastActiveDate := today, badges := [] },
    badges := BADGES,
    missions := DAILY_MISSIONS,
    stats := ⟨0, 0, 0, 0, 0, 0, 0⟩ }

/-! Evaluation bridge.

`addXP` floors a rational product. For computation on concrete states we
prove it equal to an all-natural-number form: the multiplier is always a
multiple of 1/4, so `⌊base * mult⌋ = base * (4 * mult) / 4` in `Nat`. -/

/-- The streak multiplier expressed in quarter units (4 × multiplier). -/
def multQuarters (streak : Nat) : Nat :=
  if streak ≥ 30 then 8
  else if streak ≥ 14 then 7
  else if streak ≥ 7 then 6
  else if streak ≥ 3 then 5
  else 4

lemma getStreakMultiplier_eq_quarters (s : Nat) :
    getStreakMultiplier s = (multQuarters s : ℚ) / 4 := by
  unfold getStreakMultiplier multQuarters
  split_ifs <;> norm_num

lemma getStreakMultiplier_ge_one (s : Nat) : 1 ≤ getStreakMultiplier s := by
  unfold getStreakMultiplier
  split_ifs <;> norm_num

lemma floor_mul_multiplier (b s : Nat) :
    (Int.floor ((b : ℚ) * getStreakMultiplier s)).toNat = b * multQuarters s / 4 := by
  rw [getStreakMultiplier_eq_quarters]
  rw [show ((b : ℚ) * ((multQuarters s : ℚ) / 4)) =
      ((b * multQuarters s : ℕ) : ℚ) / ((4 : ℕ) : ℚ) by push_cast; ring]
  rw [Rat.floor_natCast_div_natCast]
  omega

/-- All-`Nat` evaluation form of `addXP`, identical to `addXP` except that
the floored rational product is replaced by natural-number arithmetic.
Proved equal to `addXP` in `addXP_eq_eval`. -/
def addXPEval (now : Int) (t : XPEventType) (customAmount : Option Nat)
    (st : GameState) : AddXPResult × GameState :=
  let baseXP := customAmount.getD (XP_REWARDS t)
  let xpGained := baseXP * multQuarters st.user.streak / 4
  let newXP := st.user.xp + xpGained
  let newLevel := calculateLevel newXP
  let leveledUp := decide (st.user.level < newLevel)
  let st1 := { st with user := { st.user with xp := newXP, level := newLevel } }
  let st2 := if newLevel ≥ 10 then (unlockBadge now "level_10" st1).2 else st1
  ({ xpGained := xpGained,
     leveledUp := leveledUp,
     newLevel := if leveledUp then some newLevel else none }, st2)

lemma addXP_eq_eval (now : Int) (t : XPEventType) (c : Option Nat)
    (st : GameState) : addXP now t c st = addXPEval now t c st := by
  unfold addXP addXPEval
  simp only [floor_mul_multiplier]

/-- All-`Nat` evaluation form of `missionFold` (uses `addXPEval`). -/
def missionFoldEval (now : Int) (t : MissionType) (amount : Nat) :
    List Mission → GameState → List Mission × GameState × List Nat
  | [], st => ([], st, [])
  | m :: rest, st =>
    if m.type = t ∧ m.completed = false then
      let newProgress := min (m.progress + amount) m.target
      let completed := decide (newProgress ≥ m.target)
      let st1 := if completed then (addXPEval now .complete_mission (some m.xpReward) st).2 else st
      let award := if completed then [m.xpReward] else []
      let rec0 := missionFoldEval now t amount rest st1
      ({ m with progress := newProgress, completed := completed } :: rec0.1,
       rec0.2.1, award ++ rec0.2.2)
    else
      let rec0 := missionFoldEval now t amount rest st
      (m :: rec0.1, rec0.2.1, rec0.2.2)

lemma missionFold_eq_eval (now : Int) (t : MissionType) (amount : Nat) :
    ∀ (ms : List Mission) (st : GameState),
      missionFold now t amount ms st = missionFoldEval now t amount ms st := by
  intro ms
  induction ms with
  | nil => intro st; rfl
  | cons m rest ih =>
    intro st
    unfold missionFold missionFoldEval
    simp only [addXP_eq_eval, ih]

/-- All-`Nat` evaluation form of `updateMissionProgress`. -/
def updateMissionProgressEval (now : Int) (t : MissionType) (amount : Nat)
    (st : GameState) : GameState :=
  let r := missionFoldEval now t amount st.missions st
  { r.2.1 with missions := r.1 }

lemma updateMissionProgress_eq_eval (now : Int) (t : MissionType)
    (amount : Nat) (st : GameState) :
    updateMissionProgress now t amount st = updateMissionProgressEval now t amount st := by
  unfold updateMissionProgress updateMissionProgressEval
  simp only [missionFold_eq_eval]

/-! Frame lemmas for `unlockBadge`.

`unlockBadge` touches only the badge catalog and the user's badge list
and XP; the user's streak, last-active date, level, the missions and the
stats are untouched. -/

lemma unlockBadge_streak (now : Int) (i : String) (st : GameState) :
    ((unlockBadge now i st).2).user.streak = st.user.streak := by
  unfold unlockBadge
  cases st.badges.find? (fun b => b.id == i) with
  | none => rfl
  | some b => by_cases h : b.unlocked <;> simp [h]

lemma unlockBadge_lastActiveDate (now : Int) (i : String) (st : GameState) :
    ((unlockBadge now i st).2).user.lastActiveDate = st.user.lastActiveDate := by
  unfold unlockBadge
  cases st.badges.find? (fun b => b.id == i) with
  | none => rfl
  | some b => by_cases h : b.unlocked <;> simp [h]

lemma unlockBadge_level (now : Int) (i : String) (st : GameState) :
    ((unlockBadge now i st).2).user.level = st.user.level := by
  unfold unlockBadge
  cases st.badges.find? (fun b => b.id == i) with
  | none => rfl
  | some b => by_cases h : b.unlocked <;> simp [h]

lemma unlockBadge_stats (now : Int) (i : String) (st : GameState) :
    ((unlockBadge now i st).2).stats = st.stats := by
  unfold unlockBadge
  cases st.badges.find? (fun b => b.id == i) with
  | none => rfl
  | some b => by_cases h : b.unlocked <;> simp [h]

lemma unlockBadge_missions (now : Int) (i : String) (st : GameState) :
    ((unlockBadge now i st).2).missions = st.missions := by
  unfold unlockBadge
  cases st.badges.find? (fun b => b.id == i) with
  | none => rfl
  | some b => by_cases h : b.unlocked <;> simp [h]

/-! Helper lemmas: square roots and the streak update. -/

lemma sqrt_eval (m k : Nat) (h1 : k * k ≤ m) (h2 : m < (k + 1) * (k + 1)) :
    Nat.sqrt m = k := by
  have a := (Nat.le_sqrt (m := k) (n := m)).mpr h1
  have b := (Nat.sqrt_lt (m := m) (n := k + 1)).mpr h2
  omega

lemma calculateLevel_eval (xp k : Nat) (h1 : k * k ≤ xp / 100)
    (h2 : xp / 100 < (k + 1) * (k + 1)) : calculateLevel xp = k + 1 := by
  unfold calculateLevel
  rw [sqrt_eval (xp / 100) k h1 h2]

/-- Characterization of `updateStreak`: the streak after the call, and the
fact that `lastActiveDate` always becomes `today`. -/
lemma updateStreak_spec (today : Int) (st : GameState) :
    ((updateStreak today st).user.streak =
       (if st.user.lastActiveDate = today - 1 then st.user.streak + 1
        else if st.user.lastActiveDate ≠ today then 1
        else st.user.streak)) ∧
    ((updateStreak today st).user.lastActiveDate = today) := by
  simp only [updateStreak]
  constructor
  · by_cases h7 : (if st.user.lastActiveDate = today - 1 then st.user.streak + 1
        else if st.user.lastActiveDate ≠ today then 1 else st.user.streak) ≥ 7
    · rw [if_pos h7, unlockBadge_streak]
    · rw [if_neg h7]
  · by_cases h7 : (if st.user.lastActiveDate = today - 1 then st.user.streak + 1
        else if st.user.lastActiveDate ≠ today then 1 else st.user.streak) ≥ 7
    · rw [if_pos h7, unlockBadge_lastActiveDate]
    · rw [if_neg h7]

/-- C1: calling `rollDailyStreak` (`updateStreak`) a second time on the same
calendar day leaves the streak counter and `lastActiveDate` unchanged after
the second call: same-day re-entry never double-increments the streak. -/
theorem updateStreak_same_day_second_call_noop (today : Int) (st : GameState) :
    ((updateStreak today (updateStreak today st)).user.streak
        = (updateStreak today st).user.streak) ∧
    ((updateStreak today (updateStreak today st)).user.lastActiveDate
        = (updateStreak today st).user.lastActiveDate) := by
  obtain ⟨hs1, hd1⟩ := updateStreak_spec today st
  obtain ⟨hs2, hd2⟩ := updateStreak_spec today (updateStreak today st)
  rw [hd1] at hs2
  have hne : ¬(today = today - 1) := by omega
  constructor
  · rw [hs2]
    simp [hne]
  · rw [hd2, hd1]

/-- C2: `rollDailyStreak` (`updateStreak`) increments the streak by 1 when
`lastActiveDate` is yesterday, resets it to 1 when `lastActiveDate` is
neither today nor yesterday, leaves it unchanged when `lastActiveDate` is
today, and in every case sets `lastActiveDate` to today. -/
theorem updateStreak_transitions (today : Int) (st : GameState) :
    ((updateStreak today st).user.lastActiveDate = today) ∧
    (st.user.lastActiveDate = today - 1 →
       (updateStreak today st).user.streak = st.user.streak + 1) ∧
    (st.user.lastActiveDate ≠ today - 1 → st.user.lastActiveDate ≠ today →
       (updateStreak today st).user.streak = 1) ∧
    (st.user.lastActiveDate = today →
       (updateStreak today st).user.streak = st.user.streak) := by
  obtain ⟨hs, hd⟩ := updateStreak_spec today st
  refine ⟨hd, ?_, ?_, ?_⟩
  · intro h; rw [hs]; simp [h]
  · intro h1 h2; rw [hs]; simp [h1, h2]
  · intro h
    rw [hs]
    have h1 : ¬(st.user.lastActiveDate = today - 1) := by omega
    have h2 : ¬(st.user.lastActiveDate ≠ today) := by simp [h]
    rw [if_neg h1, if_neg h2]

/-- Witness for C2: on the initial state created yesterday (day 0), calling
`updateStreak` on day 1 increments the streak from 0 to 1, and a state last
active on day 5 rolled on day 9 resets to 1. -/
theorem updateStreak_transitions_witness :
    ((initialState 0).user.lastActiveDate = (1 : Int) - 1 ∧
       (updateStreak 1 (initialState 0)).user.streak = (initialState 0).user.streak + 1) ∧
    ((initialState 5).user.lastActiveDate ≠ (9 : Int) - 1 ∧
       (initialState 5).user.lastActiveDate ≠ (9 : Int) ∧
       (updateStreak 9 (initialState 5)).user.streak = 1) ∧
    ((initialState 3).user.lastActiveDate = (3 : Int) ∧
       (updateStreak 3 (initialState 3)).user.streak = (initialState 3).user.streak) :=
  ⟨⟨by decide, (updateStreak_transitions 1 (initialState 0)).2.1 (by decide)⟩,
   ⟨by decide, by decide,
     (updateStreak_transitions 9 (initialState 5)).2.2.1 (by decide) (by decide)⟩,
   ⟨by decide, (updateStreak_transitions 3 (initialState 3)).2.2.2 (by decide)⟩⟩

/-- C9: the level function `level(xp) = floor(sqrt(xp / 100)) + 1` is
monotonically non-decreasing in xp, and is always a positive integer. -/
theorem calculateLevel_monotone (xp1 xp2 : Nat) (h : xp1 ≤ xp2) :
    calculateLevel xp1 ≤ calculateLevel xp2 ∧ 0 < calculateLevel xp1 := by
  constructor
  · unfold calculateLevel
    have := Nat.sqrt_le_sqrt (Nat.div_le_div_right (c := 100) h)
    omega
  · unfold calculateLevel
    omega

/-- Witness for C9 at xp1 = 150, xp2 = 420. -/
theorem calculateLevel_monotone_witness :
    (150 : Nat) ≤ 420 ∧
      (calculateLevel 150 ≤ calculateLevel 420 ∧ 0 < calculateLevel 150) :=
  ⟨by decide, calculateLevel_monotone 150 420 (by decide)⟩

/-! C3: the XP gain of `addXP`. -/

/-- A fresh state whose user is on a 7-day streak. -/
def stStreak7 : GameState :=
  { initialState 0 with user := { (initialState 0).user with streak := 7 } }

lemma addXP_xpGained (now : Int) (t : XPEventType) (c : Option Nat)
    (st : GameState) :
    (addXP now t c st).1.xpGained =
      (Int.floor ((c.getD (XP_REWARDS t) : ℚ) * getStreakMultiplier st.user.streak)).toNat := rfl

/-- C3: `awardXP` returns `xpGained = floor(baseAmount * multiplier)` where
the base amount is the explicit override when provided and otherwise the
per-activity-type `XP_REWARDS` entry, and the multiplier is always one of
{1, 1.25, 1.5, 1.75, 2}, tiered by the streak (≥30 → 2, ≥14 → 1.75,
≥7 → 1.5, ≥3 → 1.25, else 1). -/
theorem addXP_gain_floor_and_multiplier (now : Int) (t : XPEventType)
    (c : Option Nat) (st : GameState) :
    (((addXP now t c st).1.xpGained : ℤ)
        = Int.floor ((c.getD (XP_REWARDS t) : ℚ) * getStreakMultiplier st.user.streak)) ∧
    (getStreakMultiplier st.user.streak = 1 ∨ getStreakMultiplier st.user.streak = 5/4 ∨
     getStreakMultiplier st.user.streak = 3/2 ∨ getStreakMultiplier st.user.streak = 7/4 ∨
     getStreakMultiplier st.user.streak = 2) ∧
    (30 ≤ st.user.streak → getStreakMultiplier st.user.streak = 2) ∧
    (14 ≤ st.user.streak → st.user.streak < 30 → getStreakMultiplier st.user.streak = 7/4) ∧
    (7 ≤ st.user.streak → st.user.streak < 14 → getStreakMultiplier st.user.streak = 3/2) ∧
    (3 ≤ st.user.streak → st.user.streak < 7 → getStreakMultiplier st.user.streak = 5/4) ∧
    (st.user.streak < 3 → getStreakMultiplier st.user.streak = 1) := by
  have hfloor : 0 ≤ Int.floor ((c.getD (XP_REWARDS t) : ℚ) * getStreakMultiplier st.user.streak) := by
    apply Int.floor_nonneg.mpr
    have h1 : (0:ℚ) ≤ (c.getD (XP_REWARDS t) : ℚ) := by positivity
    have h2 : (0:ℚ) ≤ getStreakMultiplier st.user.streak :=
      le_trans (by norm_num) (getStreakMultiplier_ge_one st.user.streak)
    exact mul_nonneg h1 h2
  refine ⟨?_, ?_, ?_, ?_, ?_, ?_, ?_⟩
  · rw [addXP_xpGained, Int.toNat_of_nonneg hfloor]
  · unfold getStreakMultiplier; split_ifs <;> norm_num
  · intro h; unfold getStreakMultiplier; rw [if_pos h]
  · intro h1 h2; unfold getStreakMultiplier
    rw [if_neg (by omega), if_pos h1]
  · intro h1 h2; unfold getStreakMultiplier
    rw [if_neg (by omega), if_neg (by omega), if_pos h1]
  · intro h1 h2; unfold getStreakMultiplier
    rw [if_neg (by omega), if_neg (by omega), if_neg (by omega), if_pos h1]
  · intro h; unfold getStreakMultiplier
    rw [if_neg (by omega), if_neg (by omega), if_neg (by omega), if_neg (by omega)]

/-- Witness for C3 on a 7-day-streak state and the `correct_step` activity
(base 10, multiplier 1.5). -/
theorem addXP_gain_floor_and_multiplier_witness :
    ((7 : Nat) ≤ stStreak7.user.streak ∧ stStreak7.user.streak < 14 ∧
      getStreakMultiplier stStreak7.user.streak = 3/2) ∧
    (((addXP 0 .correct_step none stStreak7).1.xpGained : ℤ)
        = Int.floor (((Option.getD none (XP_REWARDS .correct_step)) : ℚ)
            * getStreakMultiplier stStreak7.user.streak)) :=
  ⟨⟨by decide, by decide,
     (addXP_gain_floor_and_multiplier 0 .correct_step none stStreak7).2.2.2.2.1
       (by decide) (by decide)⟩,
   (addXP_gain_floor_and_multiplier 0 .correct_step none stStreak7).1⟩

/-! Inversion of a successful `unlockBadge`, and the catalog after the update. -/

lemma unlockBadge_success_inv (now : Int) (i : String) (st : GameState)
    (b : Badge) (st2 : GameState) (h : unlockBadge now i st = (some b, st2)) :
    ∃ b0, st.badges.find? (fun x => x.id == i) = some b0 ∧ b0.unlocked = false ∧
      b = { b0 with unlocked := true } ∧
      st2 = { st with
        badges := st.badges.map (fun x =>
          if x.id == i then { x with unlocked := true, unlockedAt := some now } else x),
        user := { st.user with
          badges := st.user.badges ++ [i], xp := st.user.xp + b0.xpReward } } := by
  unfold unlockBadge at h
  cases hf : st.badges.find? (fun x => x.id == i) with
  | none => rw [hf] at h; simp at h
  | some b0 =>
    rw [hf] at h
    dsimp only at h
    by_cases hu : b0.unlocked = true
    · rw [if_pos hu] at h; simp at h
    · rw [if_neg hu] at h
      simp only [Bool.not_eq_true] at hu
      injection h with h1 h2
      injection h1 with h1
      exact ⟨b0, rfl, hu, h1.symm, h2.symm⟩

lemma unlock_map_preserves_id (i : String) (now : Int) (x : Badge) :
    (if x.id == i then { x with unlocked := true, unlockedAt := some now } else x).id
      = x.id := by
  split <;> rfl

lemma find?_unlock_map (l : List Badge) (i : String) (now : Int) :
    (l.map (fun x =>
        if x.id == i then { x with unlocked := true, unlockedAt := some now } else x)).find?
        (fun b => b.id == i)
      = (l.find? (fun b => b.id == i)).map (fun x =>
          if x.id == i then { x with unlocked := true, unlockedAt := some now } else x) := by
  have hp : ((fun b : Badge => b.id == i) ∘ fun x =>
      if x.id == i then { x with unlocked := true, unlockedAt := some now } else x)
      = (fun b : Badge => b.id == i) := by
    funext x
    simp only [Function.comp_apply, unlock_map_preserves_id]
  rw [List.find?_map, hp]

lemma unlockBadge_unknown_noop (now : Int) (i : String) (st : GameState)
    (h : st.badges.find? (fun x => x.id == i) = none) :
    unlockBadge now i st = (none, st) := by
  unfold unlockBadge; rw [h]

lemma unlockBadge_already_unlocked_noop (now : Int) (i : String)
    (st : GameState) (b : Badge)
    (h : st.badges.find? (fun x => x.id == i) = some b) (hu : b.unlocked = true) :
    unlockBadge now i st = (none, st) := by
  unfold unlockBadge; rw [h]
  dsimp only
  rw [if_pos hu]

lemma unlockBadge_second_noop (now now2 : Int) (i : String) (st : GameState)
    (b : Badge) (st2 : GameState) (h : unlockBadge now i st = (some b, st2)) :
    unlockBadge now2 i st2 = (none, st2) := by
  obtain ⟨b0, hf, hu, hb, hst⟩ := unlockBadge_success_inv now i st b st2 h
  have hbi : (b0.id == i) = true := by simpa using List.find?_some hf
  have hfind : st2.badges.find? (fun x => x.id == i)
      = some { b0 with unlocked := true, unlockedAt := some now } := by
    rw [hst]
    dsimp only
    rw [find?_unlock_map, hf]
    simp only [Option.map_some']
    rw [if_pos hbi]
  unfold unlockBadge
  rw [hfind]
  rfl

/-- C6: `unlockBadge` returns `none` and leaves the whole state (cumulative
XP included) unchanged when the badge is unknown or already unlocked; in
particular a second call on a just-unlocked badge returns `none` and
changes nothing. -/
theorem unlockBadge_noop_unknown_or_unlocked (now now2 : Int) (i : String)
    (st : GameState) :
    (st.badges.find? (fun x => x.id == i) = none → unlockBadge now i st = (none, st)) ∧
    (∀ b, st.badges.find? (fun x => x.id == i) = some b → b.unlocked = true →
        unlockBadge now i st = (none, st)) ∧
    (∀ b st2, unlockBadge now i st = (some b, st2) →
        unlockBadge now2 i st2 = (none, st2)) :=
  ⟨fun h => unlockBadge_unknown_noop now i st h,
   fun b h hu => unlockBadge_already_unlocked_noop now i st b h hu,
   fun b st2 h => unlockBadge_second_noop now now2 i st b st2 h⟩

/-- Witness for C6: a second `unlockBadge` on `first_step` is a no-op, and
an unknown badge id is a no-op, on concrete states. -/
theorem unlockBadge_noop_witness :
    ((initialState 0).badges.find? (fun x => x.id == "nope") = none ∧
       unlockBadge 0 "nope" (initialState 0) = (none, initialState 0)) ∧
    (unlockBadge 0 "first_step" (initialState 0)
        = (some ⟨"first_step", 25, true, none⟩,
           (unlockBadge 0 "first_step" (initialState 0)).2) ∧
     unlockBadge 1 "first_step" ((unlockBadge 0 "first_step" (initialState 0)).2)
        = (none, (unlockBadge 0 "first_step" (initialState 0)).2)) :=
  ⟨⟨by decide, (unlockBadge_noop_unknown_or_unlocked 0 0 "nope" (initialState 0)).1 (by decide)⟩,
   ⟨by decide,
    (unlockBadge_noop_unknown_or_unlocked 0 1 "first_step" (initialState 0)).2.2
      ⟨"first_step", 25, true, none⟩ ((unlockBadge 0 "first_step" (initialState 0)).2)
      (by decide)⟩⟩

/-! C7: successful `unlockBadge`. -/

/-- Counterexample for C7 as stated: on a successful unlock, the badge
stored in the catalog carries the recorded unlock timestamp, but the badge
value returned to the caller does not — the returned badge is NOT the
updated badge. -/
theorem unlockBadge_returned_badge_counterexample :
    ((unlockBadge 0 "first_step" (initialState 0)).1
        = some ⟨"first_step", 25, true, none⟩) ∧
    ((unlockBadge 0 "first_step" (initialState 0)).2.badges.find?
        (fun b => b.id == "first_step")
        = some ⟨"first_step", 25, true, some 0⟩) ∧
    ((unlockBadge 0 "first_step" (initialState 0)).1
        ≠ (unlockBadge 0 "first_step" (initialState 0)).2.badges.find?
            (fun b => b.id == "first_step")) := by decide

/-- C7 (amended): for every known, locked badge, `unlockBadge` marks it
unlocked recording the unlock timestamp in the stored catalog, adds exactly
the badge's `xpReward` to cumulative XP without the streak multiplier
(the streak is not read at all), appends the badge id to the user's badge
list, and returns the badge with `unlocked` set to true — but with its
previous (absent) `unlockedAt`, not the recorded timestamp. -/
theorem unlockBadge_success_spec (now : Int) (i : String) (st : GameState)
    (b : Badge) (hf : st.badges.find? (fun x => x.id == i) = some b)
    (hu : b.unlocked = false) :
    ((unlockBadge now i st).1 = some { b with unlocked := true }) ∧
    (((unlockBadge now i st).2).user.xp = st.user.xp + b.xpReward) ∧
    (((unlockBadge now i st).2).badges.find? (fun x => x.id == i)
        = some { b with unlocked := true, unlockedAt := some now }) ∧
    (((unlockBadge now i st).2).user.badges = st.user.badges ++ [i]) := by
  have hbi : (b.id == i) = true := by simpa using List.find?_some hf
  unfold unlockBadge
  rw [hf]
  dsimp only
  rw [if_neg (by simp [hu])]
  refine ⟨rfl, rfl, ?_, rfl⟩
  rw [find?_unlock_map, hf]
  simp only [Option.map_some']
  rw [if_pos hbi]

/-- Witness for C7 (amended) at the `first_step` badge on the initial state. -/
theorem unlockBadge_success_spec_witness :
    ((initialState 0).badges.find? (fun x => x.id == "first_step")
        = some ⟨"first_step", 25, false, none⟩ ∧
     Badge.unlocked ⟨"first_step", 25, false, none⟩ = false) ∧
    (((unlockBadge 0 "first_step" (initialState 0)).1
        = some ⟨"first_step", 25, true, none⟩) ∧
     (((unlockBadge 0 "first_step" (initialState 0)).2).user.xp
        = (initialState 0).user.xp + 25) ∧
     (((unlockBadge 0 "first_step" (initialState 0)).2).badges.find?
        (fun x => x.id == "first_step") = some ⟨"first_step", 25, true, some 0⟩) ∧
     (((unlockBadge 0 "first_step" (initialState 0)).2).user.badges
        = (initialState 0).user.badges ++ ["first_step"])) :=
  ⟨⟨by decide, by decide⟩,
   unlockBadge_success_spec 0 "first_step" (initialState 0)
     ⟨"first_step", 25, false, none⟩ (by decide) (by decide)⟩

/-- C10: a successful `unlockBadge` increases cumulative XP by the badge's
reward but leaves the stored `level` field unchanged (the level is
recomputed only inside `addXP`), so right after `unlockBadge` the stored
level can be strictly below `floor(sqrt(xp / 100)) + 1` of the new XP:
unlocking `level_10` (250 XP) from the initial state leaves level 1 while
the formula gives 2. -/
theorem unlockBadge_level_stale :
    (∀ (now : Int) (i : String) (st : GameState),
        ((unlockBadge now i st).2).user.level = st.user.level) ∧
    ((unlockBadge 0 "level_10" (initialState 0)).2.user.level
        < calculateLevel ((unlockBadge 0 "level_10" (initialState 0)).2.user.xp)) := by
  refine ⟨fun now i st => unlockBadge_level now i st, ?_⟩
  have hx : (unlockBadge 0 "level_10" (initialState 0)).2.user.xp = 250 := by decide
  have hl : (unlockBadge 0 "level_10" (initialState 0)).2.user.level = 1 := by decide
  rw [hx, hl, calculateLevel_eval 250 1 (by decide) (by decide)]
  omega

/-! C8: the `incrementStat` thresholds. -/

lemma Stats.get_inc_self (s : Stats) (k : StatKey) :
    (s.inc k).get k = s.get k + 1 := by
  cases k <;> rfl

lemma Stats.get_inc_other (s : Stats) (k k2 : StatKey) (h : k2 ≠ k) :
    (s.inc k).get k2 = s.get k2 := by
  cases k <;> cases k2 <;> first | rfl | exact absurd rfl h

/-- Modelled from the spec: the fixed threshold table of `incrementCounter`
(counter → badge id), used to compare the chain of checks in the source's
`incrementStat` against the spec's table form. -/
def specStatBadge : StatKey → String
  | .stepsSubmitted => "first_step"
  | .correctSteps => "correct_step"
  | .quizzesCompleted => "quiz_master"
  | .flashcardsReviewed => "flashcard_fan"
  | .studyPlansCreated => "study_planner"
  | .doubtsAsked => "doubt_solver"
  | .imagesUploaded => "ocr_explorer"

/-- Modelled from the spec: the threshold rule of `incrementCounter` for
each counter, comparison "equals" for first-occurrence badges vs.
"at least" for cumulative badges, applied to the new counter value. -/
def specStatThreshold : StatKey → Nat → Bool
  | .stepsSubmitted, n => n == 1
  | .correctSteps, n => n == 1
  | .quizzesCompleted, n => decide (5 ≤ n)
  | .flashcardsReviewed, n => decide (50 ≤ n)
  | .studyPlansCreated, n => n == 1
  | .doubtsAsked, n => decide (10 ≤ n)
  | .imagesUploaded, n => decide (5 ≤ n)

/-- The source's seven sequential checks collapse to the spec's table:
exactly the rule for the incremented counter can fire. -/
lemma incrementStat_table (now : Int) (k : StatKey) (st : GameState) :
    incrementStat now k st =
      if specStatThreshold k (st.stats.get k + 1) = true
      then (unlockBadge now (specStatBadge k) { st with stats := st.stats.inc k }).2
      else { st with stats := st.stats.inc k } := by
  cases k <;>
    simp [incrementStat, specStatBadge, specStatThreshold,
      Stats.inc, Stats.get, Nat.succ_le_iff]

/-- C8: `incrementStat` increments exactly the named counter by 1, then
unlocks precisely the badge of the spec's threshold table when the rule for
that counter is satisfied by the new value (`= 1` for first-occurrence
badges, `≥` for cumulative ones); an already-unlocked badge is never
re-awarded (XP and catalog unchanged), and in the concrete scenario the
5th `quizzesCompleted` increment unlocks `quiz_master` exactly once (100
XP) while the 6th changes neither XP nor the catalog. -/
theorem incrementStat_thresholds (now : Int) (k : StatKey) (st : GameState) :
    ((incrementStat now k st).stats = st.stats.inc k) ∧
    ((st.stats.inc k).get k = st.stats.get k + 1) ∧
    (∀ k2, k2 ≠ k → (st.stats.inc k).get k2 = st.stats.get k2) ∧
    (incrementStat now k st =
       if specStatThreshold k (st.stats.get k + 1) = true
       then (unlockBadge now (specStatBadge k) { st with stats := st.stats.inc k }).2
       else { st with stats := st.stats.inc k }) ∧
    (∀ b, st.badges.find? (fun x => x.id == specStatBadge k) = some b →
        b.unlocked = true →
        (incrementStat now k st).user = st.user ∧
        (incrementStat now k st).badges = st.badges) ∧
    ((Nat.iterate (incrementStat 0 .quizzesCompleted) 4 (initialState 0)).user.xp = 0) ∧
    ((Nat.iterate (incrementStat 0 .quizzesCompleted) 5 (initialState 0)).user.xp = 100) ∧
    ((Nat.iterate (incrementStat 0 .quizzesCompleted) 5 (initialState 0)).badges.find?
        (fun x => x.id == "quiz_master") = some ⟨"quiz_master", 100, true, some 0⟩) ∧
    ((Nat.iterate (incrementStat 0 .quizzesCompleted) 6 (initialState 0)).user.xp = 100) ∧
    ((Nat.iterate (incrementStat 0 .quizzesCompleted) 6 (initialState 0)).badges
        = (Nat.iterate (incrementStat 0 .quizzesCompleted) 5 (initialState 0)).badges) := by
  refine ⟨?_, Stats.get_inc_self st.stats k,
    fun k2 h => Stats.get_inc_other st.stats k k2 h,
    incrementStat_table now k st, ?_,
    by decide, by decide, by decide, by decide, by decide⟩
  · rw [incrementStat_table]
    split
    · rw [unlockBadge_stats]
    · rfl
  · intro b hf hu
    rw [incrementStat_table]
    split
    · have hno : unlockBadge now (specStatBadge k) { st with stats := st.stats.inc k }
          = (none, { st with stats := st.stats.inc k }) :=
        unlockBadge_already_unlocked_noop now (specStatBadge k) _ b hf hu
      rw [hno]
      exact ⟨rfl, rfl⟩
    · exact ⟨rfl, rfl⟩

/-- Witness for C8: with `quiz_master` already unlocked, a further
`quizzesCompleted` increment does not re-award it; and `doubtsAsked` is
untouched by a `quizzesCompleted` increment. -/
theorem incrementStat_thresholds_witness :
    (((unlockBadge 0 "quiz_master" (initialState 0)).2.badges.find?
        (fun x => x.id == specStatBadge .quizzesCompleted)
          = some ⟨"quiz_master", 100, true, some 0⟩) ∧
     (Badge.unlocked ⟨"quiz_master", 100, true, some 0⟩ = true)) ∧
    ((incrementStat 0 .quizzesCompleted
        ((unlockBadge 0 "quiz_master" (initialState 0)).2)).user
       = ((unlockBadge 0 "quiz_master" (initialState 0)).2).user ∧
     (incrementStat 0 .quizzesCompleted
        ((unlockBadge 0 "quiz_master" (initialState 0)).2)).badges
       = ((unlockBadge 0 "quiz_master" (initialState 0)).2).badges) ∧
    (StatKey.doubtsAsked ≠ StatKey.quizzesCompleted ∧
     (((unlockBadge 0 "quiz_master" (initialState 0)).2).stats.inc
          .quizzesCompleted).get .doubtsAsked
       = ((unlockBadge 0 "quiz_master" (initialState 0)).2).stats.get .doubtsAsked) :=
  ⟨⟨by decide, by decide⟩,
   (incrementStat_thresholds 0 .quizzesCompleted
      ((unlockBadge 0 "quiz_master" (initialState 0)).2)).2.2.2.2.1
     ⟨"quiz_master", 100, true, some 0⟩ (by decide) (by decide),
   by decide,
   (incrementStat_thresholds 0 .quizzesCompleted
      ((unlockBadge 0 "quiz_master" (initialState 0)).2)).2.2.1
     .doubtsAsked (by decide)⟩

/-! Missions: characterization of `updateMissionProgress`. -/

/-- The per-mission transformation of one `updateMissionProgress` call:
progress bumped and clamped, completion recomputed, for a matching
not-yet-completed mission; all others untouched. -/
def missionStep (t : MissionType) (amount : Nat) (m : Mission) : Mission :=
  if m.type = t ∧ m.completed = false then
    { m with progress := min (m.progress + amount) m.target,
             completed := decide (min (m.progress + amount) m.target ≥ m.target) }
  else m

/-- Whether a mission is of the given category and not yet completed. -/
def missionActive (t : MissionType) (m : Mission) : Bool :=
  decide (m.type = t ∧ m.completed = false)

/-- Whether one `updateMissionProgress` call completes this mission (and
hence triggers its `addXP('complete_mission', xpReward)` award). -/
def missionFires (t : MissionType) (amount : Nat) (m : Mission) : Bool :=
  decide (m.type = t ∧ m.completed = false ∧ m.target ≤ m.progress + amount)

/-- Closed form of `missionFold`: the missions list is mapped by
`missionStep`, the threaded state is the fold of one `addXP` call per
firing mission, and the awards are the firing missions' rewards. -/
lemma missionFold_spec (now : Int) (t : MissionType) (amount : Nat) :
    ∀ (ms : List Mission) (st : GameState),
      missionFold now t amount ms st =
        (ms.map (missionStep t amount),
         (ms.filter (missionFires t amount)).foldl
           (fun s x => (addXP now .complete_mission (some x.xpReward) s).2) st,
         (ms.filter (missionFires t amount)).map (fun x => x.xpReward)) := by
  intro ms
  induction ms with
  | nil => intro st; rfl
  | cons m rest ih =>
    intro st
    unfold missionFold
    by_cases ha : m.type = t ∧ m.completed = false
    · rw [if_pos ha]
      by_cases hf : m.target ≤ m.progress + amount
      · have hcompl : (decide (min (m.progress + amount) m.target ≥ m.target)) = true := by
          simp only [decide_eq_true_eq, ge_iff_le]
          omega
        have hfire : missionFires t amount m = true := by
          simp [missionFires, ha.1, ha.2, hf]
        simp only [hcompl, if_true, ih]
        simp [List.filter_cons, hfire, missionStep, ha, hcompl]
        omega
      · have hcompl : (decide (min (m.progress + amount) m.target ≥ m.target)) = false := by
          simp only [decide_eq_false_iff_not, ge_iff_le]
          omega
        have hfire : missionFires t amount m = false := by
          simp [missionFires, hf]
        simp only [hcompl, if_false, ih]
        simp [List.filter_cons, hfire, missionStep, ha, hcompl]
        omega
    · rw [if_neg ha]
      have hfire : missionFires t amount m = false := by
        simp only [missionFires, decide_eq_false_iff_not]
        intro hcon
        exact ha ⟨hcon.1, hcon.2.1⟩
      simp only [ih]
      simp [List.filter_cons, hfire, missionStep, ha]

/-- If exactly one mission of the category is active and the call lets it
reach its target, it is the unique firing mission. -/
lemma filter_fires_eq (t : MissionType) (amount : Nat) (l : List Mission) :
    l.filter (missionFires t amount)
      = (l.filter (missionActive t)).filter
          (fun x => decide (x.target ≤ x.progress + amount)) := by
  rw [List.filter_filter]
  apply List.filter_congr
  intro x _
  by_cases h1 : x.type = t <;> by_cases h2 : x.completed = false <;>
    by_cases h3 : x.target ≤ x.progress + amount <;>
    simp [missionFires, missionActive, h1, h2, h3]

lemma filter_fires_of_filter_active (t : MissionType) (amount : Nat)
    (l : List Mission) (m : Mission)
    (h : l.filter (missionActive t) = [m])
    (hf : m.target ≤ m.progress + amount) :
    l.filter (missionFires t amount) = [m] := by
  rw [filter_fires_eq, h]
  simp [hf]

/-! C4: the XP amount awarded on mission completion. -/

/-- Counterexample for C4 as stated: on a 7-day streak (multiplier 1.5),
completing the study mission (xpReward 40) adds 60 XP, not 40 — the
mission-completion award passes through the streak multiplier, so the
amount added does NOT equal `xpReward` for every streak value. -/
theorem advanceMission_flat_award_counterexample :
    (stStreak7.user.xp = 0) ∧
    ((updateMissionProgress 0 .study 1 stStreak7).missions.find?
        (fun x => x.id == "mission_study")
        = some ⟨"mission_study", .study, 1, 1, 40, true⟩) ∧
    ((updateMissionProgress 0 .study 1 stStreak7).user.xp = 60) ∧
    ((60 : Nat) ≠ 40) := by
  refine ⟨by decide, ?_, ?_, by decide⟩ <;>
    (rw [updateMissionProgress_eq_eval]; decide)

/-- C4 (amended): when the unique active mission of the category reaches
its target, `updateMissionProgress` marks it completed and awards its XP
via `addXP('complete_mission', xpReward)` — so the amount added to
cumulative XP is `floor(xpReward * streak multiplier)`, which equals
`xpReward` exactly when the streak is below 3 (multiplier 1). -/
theorem advanceMission_completion_award_spec (now : Int) (t : MissionType)
    (amount : Nat) (st : GameState) (m : Mission)
    (hact : st.missions.filter (missionActive t) = [m])
    (hreach : m.target ≤ m.progress + amount) :
    ((updateMissionProgress now t amount st).user
        = ((addXP now .complete_mission (some m.xpReward) st).2).user) ∧
    ((updateMissionProgress now t amount st).badges
        = ((addXP now .complete_mission (some m.xpReward) st).2).badges) ∧
    ((updateMissionProgress now t amount st).missions
        = st.missions.map (missionStep t amount)) ∧
    (missionAwards now t amount st = [m.xpReward]) ∧
    ((missionStep t amount m).completed = true) ∧
    ((addXP now .complete_mission (some m.xpReward) st).1.xpGained
        = m.xpReward * multQuarters st.user.streak / 4) ∧
    (st.user.streak < 3 →
        (addXP now .complete_mission (some m.xpReward) st).1.xpGained = m.xpReward) := by
  have hfl : st.missions.filter (missionFires t amount) = [m] :=
    filter_fires_of_filter_active t amount st.missions m hact hreach
  have hspec := missionFold_spec now t amount st.missions st
  have hmem : m ∈ st.missions.filter (missionActive t) := by rw [hact]; simp
  have hm_active : missionActive t m = true := (List.mem_filter.mp hmem).2
  have ha : m.type = t ∧ m.completed = false := of_decide_eq_true hm_active
  have hump : updateMissionProgress now t amount st
      = { (addXP now .complete_mission (some m.xpReward) st).2 with
          missions := st.missions.map (missionStep t amount) } := by
    simp only [updateMissionProgress, hspec, hfl, List.foldl_cons, List.foldl_nil]
  have hgain : (addXP now .complete_mission (some m.xpReward) st).1.xpGained
      = m.xpReward * multQuarters st.user.streak / 4 := by
    rw [addXP_eq_eval]; rfl
  refine ⟨by rw [hump], by rw [hump], by rw [hump], ?_, ?_, hgain, ?_⟩
  · simp only [missionAwards, hspec, hfl, List.map_cons, List.map_nil]
  · unfold missionStep
    rw [if_pos ha]
    simp only [decide_eq_true_eq, ge_iff_le]
    omega
  · intro hs
    rw [hgain]
    have h4 : multQuarters st.user.streak = 4 := by
      unfold multQuarters
      rw [if_neg (by omega), if_neg (by omega), if_neg (by omega), if_neg (by omega)]
    rw [h4]
    omega

/-- Witness for C4 (amended): completing the study mission from the fresh
store (streak 0) awards exactly its 40 XP. -/
theorem advanceMission_completion_award_spec_witness :
    ((initialState 0).missions.filter (missionActive .study)
        = [⟨"mission_study", .study, 1, 0, 40, false⟩] ∧
     (1 : Nat) ≤ 0 + 1) ∧
    ((updateMissionProgress 0 .study 1 (initialState 0)).user
        = ((addXP 0 .complete_mission (some 40) (initialState 0)).2).user ∧
     (updateMissionProgress 0 .study 1 (initialState 0)).badges
        = ((addXP 0 .complete_mission (some 40) (initialState 0)).2).badges ∧
     (updateMissionProgress 0 .study 1 (initialState 0)).missions
        = (initialState 0).missions.map (missionStep .study 1) ∧
     missionAwards 0 .study 1 (initialState 0) = [40] ∧
     (missionStep .study 1 ⟨"mission_study", .study, 1, 0, 40, false⟩).completed = true ∧
     (addXP 0 .complete_mission (some 40) (initialState 0)).1.xpGained
        = 40 * multQuarters (initialState 0).user.streak / 4 ∧
     ((initialState 0).user.streak < 3 →
        (addXP 0 .complete_mission (some 40) (initialState 0)).1.xpGained = 40)) :=
  ⟨⟨by decide, by decide⟩,
   advanceMission_completion_award_spec 0 .study 1 (initialState 0)
     ⟨"mission_study", .study, 1, 0, 40, false⟩ (by decide) (by decide)⟩

/-! C5: sequences of `updateMissionProgress` calls. -/

/-- Iterate `updateMissionProgress` over a list of amounts, collecting the
mission-completion awards of every call. -/
def runMissions (now : Int) (t : MissionType) :
    List Nat → GameState → GameState × List Nat
  | [], st => (st, [])
  | a :: rest, st =>
    let r := runMissions now t rest (updateMissionProgress now t a st)
    (r.1, missionAwards now t a st ++ r.2)
lemma missionStep_inactive (t : MissionType) (a : Nat) (x : Mission)
    (hx : ¬ missionActive t x = true) : missionStep t a x = x := by
  simp only [missionActive, decide_eq_true_eq] at hx
  unfold missionStep
  rw [if_neg hx]

lemma filter_singleton_active (t : MissionType) (l : List Mission)
    (m : Mission) (hact : l.filter (missionActive t) = [m]) :
    missionActive t m = true := by
  have hm : m ∈ l.filter (missionActive t) := by
    rw [hact]
    exact List.mem_singleton.mpr rfl
  exact (List.mem_filter.mp hm).2

lemma mem_of_filter_singleton (t : MissionType) (l : List Mission)
    (m : Mission) (hact : l.filter (missionActive t) = [m]) : m ∈ l := by
  have hm : m ∈ l.filter (missionActive t) := by
    rw [hact]
    exact List.mem_singleton.mpr rfl
  exact (List.mem_filter.mp hm).1

lemma active_mem_eq (t : MissionType) (l : List Mission) (m : Mission)
    (hact : l.filter (missionActive t) = [m]) (x : Mission) (hx : x ∈ l)
    (hax : missionActive t x = true) : x = m := by
  have hm : x ∈ l.filter (missionActive t) := List.mem_filter.mpr ⟨hx, hax⟩
  rw [hact] at hm
  exact List.mem_singleton.mp hm

/-- Replace every mission of the category that is still active by `mf`,
leaving all other missions untouched. When the list has exactly one active
mission of the category (the ledger's situation), this substitutes the
evolved mission into its slot. -/
def replaceActive (t : MissionType) (mf : Mission) (l : List Mission) :
    List Mission :=
  l.map (fun x => if missionActive t x = true then mf else x)

lemma replaceActive_cons (t : MissionType) (mf x : Mission)
    (xs : List Mission) :
    replaceActive t mf (x :: xs)
      = (if missionActive t x = true then mf else x) :: replaceActive t mf xs := rfl

lemma replaceActive_self (t : MissionType) (l : List Mission) (m : Mission)
    (hact : l.filter (missionActive t) = [m]) :
    replaceActive t m l = l := by
  unfold replaceActive
  have h : ∀ x ∈ l, (if missionActive t x = true then m else x) = id x := by
    intro x hx
    simp only [id]
    by_cases hax : missionActive t x = true
    · rw [if_pos hax]
      exact (active_mem_eq t l m hact x hx hax).symm
    · rw [if_neg hax]
  rw [List.map_congr_left h, List.map_id]

lemma replaceActive_of_none (t : MissionType) (mf : Mission)
    (l : List Mission) (hnone : l.filter (missionActive t) = []) :
    replaceActive t mf l = l := by
  have hall := List.filter_eq_nil_iff.mp hnone
  unfold replaceActive
  have h : ∀ x ∈ l, (if missionActive t x = true then mf else x) = id x := by
    intro x hx
    simp only [id]
    rw [if_neg (hall x hx)]
  rw [List.map_congr_left h, List.map_id]

lemma filter_replaceActive (t : MissionType) (mf : Mission) :
    ∀ (l : List Mission) (m : Mission), l.filter (missionActive t) = [m] →
      (replaceActive t mf l).filter (missionActive t)
        = if missionActive t mf = true then [mf] else [] := by
  intro l
  induction l with
  | nil => intro m hact; simp at hact
  | cons x xs ih =>
    intro m hact
    by_cases hx : missionActive t x = true
    · rw [List.filter_cons_of_pos hx] at hact
      injection hact with hxm hxs
      have hrxs : replaceActive t mf xs = xs := replaceActive_of_none t mf xs hxs
      rw [replaceActive_cons, if_pos hx, hrxs]
      by_cases hmf : missionActive t mf = true
      · rw [List.filter_cons_of_pos hmf, hxs, if_pos hmf]
      · rw [List.filter_cons_of_neg hmf, hxs, if_neg hmf]
    · rw [List.filter_cons_of_neg hx] at hact
      rw [replaceActive_cons, if_neg hx, List.filter_cons_of_neg hx]
      exact ih m hact

lemma replaceActive_replaceActive (t : MissionType) (mf m1 : Mission)
    (l : List Mission) (h1 : missionActive t m1 = true) :
    replaceActive t mf (replaceActive t m1 l) = replaceActive t mf l := by
  unfold replaceActive
  rw [List.map_map]
  apply List.map_congr_left
  intro x _
  simp only [Function.comp_apply]
  by_cases hx : missionActive t x = true
  · simp [hx, h1]
  · simp [hx]

/-- The per-element effect of one call on a list whose unique active
mission of the category is `m`: every slot evolves by `missionStep`, which
is `missionStep t a m` on the active slot and the identity elsewhere. -/
lemma map_missionStep_unique (t : MissionType) (a : Nat) (l : List Mission)
    (m : Mission) (hact : l.filter (missionActive t) = [m]) :
    l.map (missionStep t a) = replaceActive t (missionStep t a m) l := by
  unfold replaceActive
  apply List.map_congr_left
  intro x hx
  by_cases hax : missionActive t x = true
  · rw [if_pos hax, active_mem_eq t l m hact x hx hax]
  · rw [if_neg hax, missionStep_inactive t a x hax]

/-- One call when the store's unique active mission of the category
reaches its target: the mission is completed in place and its reward is
awarded once. -/
lemma ump_unique_fire (now : Int) (t : MissionType) (a : Nat)
    (st : GameState) (m : Mission)
    (hact : st.missions.filter (missionActive t) = [m])
    (hreach : m.target ≤ m.progress + a) :
    (updateMissionProgress now t a st).missions
        = replaceActive t { m with progress := m.target, completed := true }
            st.missions ∧
    missionAwards now t a st = [m.xpReward] := by
  have ham : missionActive t m = true := filter_singleton_active t st.missions m hact
  have ha : m.type = t ∧ m.completed = false := of_decide_eq_true ham
  have hfires : st.missions.filter (missionFires t a) = [m] :=
    filter_fires_of_filter_active t a st.missions m hact hreach
  have hspec := missionFold_spec now t a st.missions st
  have hstep : missionStep t a m = { m with progress := m.target, completed := true } := by
    unfold missionStep
    rw [if_pos ha]
    have h2 : decide (min (m.progress + a) m.target ≥ m.target) = true := by
      simp only [decide_eq_true_eq, ge_iff_le]; omega
    have h1 : min (m.progress + a) m.target = m.target := by omega
    rw [h2, h1]
  have hmap := map_missionStep_unique t a st.missions m hact
  rw [hstep] at hmap
  constructor
  · simp only [updateMissionProgress, hspec, hfires, List.foldl_cons, List.foldl_nil]
    exact hmap
  · simp only [missionAwards, hspec, hfires, List.map_cons, List.map_nil]

/-- One call when the store's unique active mission of the category does
not yet reach its target: the mission just advances, nothing else in the
state changes, and no award is made. -/
lemma ump_unique_under (now : Int) (t : MissionType) (a : Nat)
    (st : GameState) (m : Mission)
    (hact : st.missions.filter (missionActive t) = [m])
    (hunder : m.progress + a < m.target) :
    updateMissionProgress now t a st
        = { st with missions :=
              replaceActive t { m with progress := m.progress + a } st.missions } ∧
    missionAwards now t a st = [] := by
  have ham : missionActive t m = true := filter_singleton_active t st.missions m hact
  have ha : m.type = t ∧ m.completed = false := of_decide_eq_true ham
  have hfires : st.missions.filter (missionFires t a) = [] := by
    rw [filter_fires_eq, hact]
    simp
    omega
  have hspec := missionFold_spec now t a st.missions st
  have hstep : missionStep t a m = { m with progress := m.progress + a } := by
    unfold missionStep
    rw [if_pos ha]
    have h2 : decide (min (m.progress + a) m.target ≥ m.target) = false := by
      simp only [decide_eq_false_iff_not, ge_iff_le]; omega
    have h1 : min (m.progress + a) m.target = m.progress + a := by omega
    rw [h2, h1, ← ha.2]
  have hmap := map_missionStep_unique t a st.missions m hact
  rw [hstep] at hmap
  constructor
  · simp only [updateMissionProgress, hspec, hfires, List.foldl_nil]
    rw [hmap]
  · simp only [missionAwards, hspec, hfires, List.map_nil]

/-- A call with no active mission of the category is a global no-op. -/
lemma ump_no_active (now : Int) (t : MissionType) (a : Nat) (st : GameState)
    (hnone : st.missions.filter (missionActive t) = []) :
    updateMissionProgress now t a st = st ∧ missionAwards now t a st = [] := by
  have hfires : st.missions.filter (missionFires t a) = [] := by
    rw [filter_fires_eq, hnone]
    rfl
  have hall := List.filter_eq_nil_iff.mp hnone
  have hmap : st.missions.map (missionStep t a) = st.missions := by
    have h : ∀ x ∈ st.missions, missionStep t a x = id x := by
      intro x hx
      simp only [id]
      exact missionStep_inactive t a x (hall x hx)
    rw [List.map_congr_left h, List.map_id]
  have hspec := missionFold_spec now t a st.missions st
  constructor
  · simp only [updateMissionProgress, hspec, hfires, List.foldl_nil, hmap]
  · simp only [missionAwards, hspec, hfires, List.map_nil]

/-- A whole run of calls with no active mission of the category changes
nothing and awards nothing. -/
lemma runMissions_no_active (now : Int) (t : MissionType) :
    ∀ (amounts : List Nat) (st : GameState),
      st.missions.filter (missionActive t) = [] →
      runMissions now t amounts st = (st, []) := by
  intro amounts
  induction amounts with
  | nil => intro st _; rfl
  | cons a rest ih =>
    intro st h
    obtain ⟨h1, h2⟩ := ump_no_active now t a st h
    simp only [runMissions, h1, h2]
    rw [ih st h]
    rfl

/-- Closed form of a whole run when the store has exactly one active
mission of the category, not yet at its target: the mission's slot holds
the clamped sum of all amounts, completion holds exactly when the raw sum
reaches the target, all other missions are untouched, and there is one
award exactly when the mission completes during the run. -/
lemma runMissions_unique_active (now : Int) (t : MissionType) :
    ∀ (amounts : List Nat) (st : GameState) (m : Mission),
      st.missions.filter (missionActive t) = [m] →
      m.progress < m.target →
      ((runMissions now t amounts st).1.missions
         = replaceActive t
             { m with progress := min (m.progress + amounts.sum) m.target,
                      completed := decide (m.target ≤ m.progress + amounts.sum) }
             st.missions) ∧
      ((runMissions now t amounts st).2 =
         if m.target ≤ m.progress + amounts.sum then [m.xpReward] else []) := by
  intro amounts
  induction amounts with
  | nil =>
    intro st m hact hp
    have ham : missionActive t m = true := filter_singleton_active t st.missions m hact
    have hc : m.completed = false := (of_decide_eq_true ham).2
    have h1 : min (m.progress + List.sum ([] : List Nat)) m.target = m.progress := by
      simp only [List.sum_nil, Nat.add_zero]
      omega
    have h2 : decide (m.target ≤ m.progress + List.sum ([] : List Nat)) = false := by
      simp only [List.sum_nil, Nat.add_zero, decide_eq_false_iff_not]
      omega
    constructor
    · show st.missions = _
      rw [h1, h2, ← hc]
      exact (replaceActive_self t st.missions m hact).symm
    · show ([] : List Nat) = _
      rw [if_neg (by simp only [List.sum_nil, Nat.add_zero]; omega)]
  | cons a rest ih =>
    intro st m hact hp
    have ham : missionActive t m = true := filter_singleton_active t st.missions m hact
    by_cases hf : m.target ≤ m.progress + a
    · obtain ⟨hms, haw⟩ := ump_unique_fire now t a st m hact hf
      have hmC : missionActive t { m with progress := m.target, completed := true } = false := by
        simp [missionActive]
      have hact1 : (updateMissionProgress now t a st).missions.filter (missionActive t)
          = [] := by
        rw [hms, filter_replaceActive t _ st.missions m hact, hmC]
        rfl
      have hrest := runMissions_no_active now t rest (updateMissionProgress now t a st) hact1
      have hsum : m.target ≤ m.progress + (a :: rest).sum := by
        simp only [List.sum_cons]
        omega
      have hmin : min (m.progress + (a :: rest).sum) m.target = m.target := by omega
      have hdec : decide (m.target ≤ m.progress + (a :: rest).sum) = true := by
        simp only [decide_eq_true_eq]
        exact hsum
      constructor
      · simp only [runMissions, hrest, hms]
        rw [hmin, hdec]
      · simp only [runMissions, hrest, haw]
        rw [if_pos hsum]
        simp
    · have hunder : m.progress + a < m.target := by omega
      obtain ⟨hump, haw⟩ := ump_unique_under now t a st m hact hunder
      have hm1a : missionActive t { m with progress := m.progress + a } = true := by
        obtain ⟨ht, hc⟩ := of_decide_eq_true ham
        simp [missionActive, ht, hc]
      have hact1 : (updateMissionProgress now t a st).missions.filter (missionActive t)
          = [{ m with progress := m.progress + a }] := by
        rw [hump]
        dsimp only
        rw [filter_replaceActive t _ st.missions m hact, hm1a]
        rfl
      obtain ⟨ih1, ih2⟩ := ih (updateMissionProgress now t a st)
        { m with progress := m.progress + a } hact1
        (show m.progress + a < m.target from hunder)
      constructor
      · simp only [runMissions]
        rw [ih1, hump]
        dsimp only
        rw [replaceActive_replaceActive t _ _ st.missions hm1a]
        simp only [List.sum_cons]
        rw [Nat.add_assoc]
      · simp only [runMissions]
        rw [ih2, haw]
        simp only [List.sum_cons, List.nil_append]
        rw [Nat.add_assoc]

/-- C5: over any sequence of `updateMissionProgress` calls of a category
on a store whose unique active mission of that category is `m` (as in the
real ledger, which holds one mission per category), the mission's progress
is monotonically non-decreasing (along every prefix of the run) and never
exceeds the target, `completed` becomes true exactly when progress reaches
the target, every other mission is untouched (`replaceActive` substitutes
only the active slot), and the mission-completion XP award is triggered
exactly once per instance (one award when the mission completes, none
afterwards, zero if it never completes). -/
theorem updateMissionProgress_run_invariants (now : Int) (t : MissionType)
    (amounts : List Nat) (st : GameState) (m : Mission)
    (hact : st.missions.filter (missionActive t) = [m])
    (hp : m.progress < m.target) :
    ∃ mf, (runMissions now t amounts st).1.missions
        = replaceActive t mf st.missions ∧
      mf ∈ (runMissions now t amounts st).1.missions ∧
      mf.id = m.id ∧ mf.type = m.type ∧ mf.target = m.target ∧
      mf.xpReward = m.xpReward ∧
      m.progress ≤ mf.progress ∧ mf.progress ≤ m.target ∧
      (mf.completed = true ↔ mf.progress = m.target) ∧
      ((runMissions now t amounts st).2.length
          = if mf.completed = true then 1 else 0) ∧
      (∀ pre post, amounts = pre ++ post →
         ∃ mp, (runMissions now t pre st).1.missions
             = replaceActive t mp st.missions ∧
           mp.progress ≤ mf.progress) := by
  obtain ⟨hms, haw⟩ := runMissions_unique_active now t amounts st m hact hp
  have ham : missionActive t m = true := filter_singleton_active t st.missions m hact
  have hmem : m ∈ st.missions := mem_of_filter_singleton t st.missions m hact
  refine ⟨_, hms, ?_, rfl, rfl, rfl, rfl, ?_, ?_, ?_, ?_, ?_⟩
  · rw [hms]
    unfold replaceActive
    exact List.mem_map.mpr ⟨m, hmem, by rw [if_pos ham]⟩
  · show m.progress ≤ min (m.progress + amounts.sum) m.target
    omega
  · show min (m.progress + amounts.sum) m.target ≤ m.target
    omega
  · show decide (m.target ≤ m.progress + amounts.sum) = true
        ↔ min (m.progress + amounts.sum) m.target = m.target
    simp only [decide_eq_true_eq]
    omega
  · show (runMissions now t amounts st).2.length
        = if decide (m.target ≤ m.progress + amounts.sum) = true then 1 else 0
    rw [haw]
    by_cases h : m.target ≤ m.progress + amounts.sum
    · rw [if_pos h]
      simp [h]
    · rw [if_neg h]
      simp [h]
  · intro pre post heq
    obtain ⟨hpre, _⟩ := runMissions_unique_active now t pre st m hact hp
    refine ⟨_, hpre, ?_⟩
    show min (m.progress + pre.sum) m.target
        ≤ min (m.progress + amounts.sum) m.target
    have hle : pre.sum ≤ amounts.sum := by
      rw [heq, List.sum_append]
      omega
    omega

/-- The fresh quiz mission of the real store (target 2, reward 75). -/
def mq0 : Mission := ⟨"mission_quiz", .quiz, 2, 0, 75, false⟩

/-- Witness for C5 on the program's real store: `initialState` holds the
four daily missions, whose unique active quiz mission is `mq0`; three unit
advances complete it at the second call and the third awards nothing. -/
theorem updateMissionProgress_run_invariants_witness :
    ((initialState 0).missions.filter (missionActive .quiz) = [mq0] ∧
      mq0.progress < mq0.target) ∧
    (∃ mf, (runMissions 0 .quiz [1, 1, 1] (initialState 0)).1.missions
        = replaceActive .quiz mf (initialState 0).missions ∧
      mf ∈ (runMissions 0 .quiz [1, 1, 1] (initialState 0)).1.missions ∧
      mf.id = mq0.id ∧ mf.type = mq0.type ∧ mf.target = mq0.target ∧
      mf.xpReward = mq0.xpReward ∧
      mq0.progress ≤ mf.progress ∧ mf.progress ≤ mq0.target ∧
      (mf.completed = true ↔ mf.progress = mq0.target) ∧
      ((runMissions 0 .quiz [1, 1, 1] (initialState 0)).2.length
          = if mf.completed = true then 1 else 0) ∧
      (∀ pre post, [1, 1, 1] = pre ++ post →
         ∃ mp, (runMissions 0 .quiz pre (initialState 0)).1.missions
             = replaceActive .quiz mp (initialState 0).missions ∧
           mp.progress ≤ mf.progress)) :=
  ⟨⟨by decide, by decide⟩,
   updateMissionProgress_run_invariants 0 .quiz [1, 1, 1] (initialState 0) mq0
     (by decide) (by decide)⟩

end Graspify
